import Mathlib

/-!
Shallow embedding of `simplenote2enex.py`: a converter from the Simple Note
JSON export format to the ENEX (Evernote export) XML format.

Modelling conventions:
* A JSON note record (`sn_note` in the Python) is a structure of `Option`
  fields: `none` means the key is absent from the dict; for `content`,
  `some none` means the key is present with JSON value `null` and
  `some (some s)` means the key is present with string value `s`.
* Python dict indexing `d['k']` raises `KeyError` on an absent key; fallible
  code is therefore embedded in `Option`, with `none` for a raised exception.
* The mutable instance configuration set up in `__init__` is embedded as the
  immutable structure `Config`; `initConfig` mirrors `__init__`'s derivation
  of the fields from the constructor arguments.
* `str.strip()` is modelled on the ASCII whitespace characters
  (space, tab, LF, CR, VT, FF), which is `str.isspace` restricted to ASCII;
  all strings handled by the converter are ASCII.
* The two `re.sub` calls in `cleanup_content` use the pattern
  `self.line_sep = "\r\n"`, which contains no regex metacharacters, so they
  are embedded as literal removal of one anchored occurrence.
-/

namespace S2E

/-- One Simple Note record, as parsed from JSON.  `content` distinguishes an
absent key (`none`), a present key with `null` value (`some none`), and a
present string (`some (some s)`). -/
structure SNNote where
  content : Option (Option String)
  creationDate : Option String
  lastModified : Option String
  tags : Option (List String)
  deriving DecidableEq, Repr

/-- The parsed input file: a dict with `activeNotes` (and possibly
`trashedNotes`, which the converter only reports and never converts, so it is
not modelled). -/
structure SNCollection where
  activeNotes : List SNNote
  deriving DecidableEq, Repr

/-- The instance state set up by `SimpleNoteToEnex.__init__`, as an immutable
record.  `export_time` stands for the wall-clock string captured once in
`__init__`; it is a parameter here because it is not deterministic.
`max_title_len` is unused by the code and omitted. -/
structure Config where
  author : Option String
  add_note_title : Bool
  sn_title_separator : String
  export_time : String
  max_notes : Nat
  filter_tags : Bool
  tag_filter : List String
  match_tagged : Bool
  match_untagged : Bool
  invert_match : Bool
  line_sep : String
  deriving DecidableEq, Repr

/-- `sys.maxsize` on a 64-bit platform, used by `__init__` when `max_notes`
is `None`. -/
def sysMaxsize : Nat := 9223372036854775807

/-- Worker for `pySplitOnChar`: `acc` is the current field, reversed. -/
def pySplitOnCharGo (sep : Char) (acc : List Char) : List Char → List String
  | [] => [⟨acc.reverse⟩]
  | x :: xs =>
    if x = sep then ⟨acc.reverse⟩ :: pySplitOnCharGo sep [] xs
    else pySplitOnCharGo sep (x :: acc) xs

/-- Python `s.split(sep)` for a single-character separator: split at every
occurrence, keeping empty fields (`''.split(',') == ['']`). -/
def pySplitOnChar (sep : Char) (s : String) : List String :=
  pySplitOnCharGo sep [] s.data

/-- Embedding of `SimpleNoteToEnex.__init__`: derives the instance fields
from the constructor arguments.  When `tag_filter` is `None` or `''` the
Python leaves `self.tag_filter` unset and sets `filter_tags = False`; the
unset attribute is modelled as `[]` (it is only read behind `filter_tags`). -/
def initConfig (author : Option String) (create_title : Bool)
    (_verbose_level : Int) (max_notes : Option Nat) (tag_filter : Option String)
    (invert_match : Bool) (match_tagged : Bool) (match_untagged : Bool)
    (export_time : String) : Config :=
  { author := author
    add_note_title := create_title
    sn_title_separator := "\r\n"
    export_time := export_time
    max_notes := max_notes.getD sysMaxsize
    filter_tags := match tag_filter with
      | none => false
      | some s => !(s = "")
    tag_filter := match tag_filter with
      | none => []
      | some s => if s = "" then [] else pySplitOnChar ',' s
    match_tagged := match_tagged
    match_untagged := match_untagged
    invert_match := invert_match
    line_sep := "\r\n" }

/-- Python `x or ''` for `x : Optional[str]`: `None` and `''` both become
`''` (the lambda `verif_none` in `convert_to_enex`). -/
def verif_none : Option String → String
  | none => ""
  | some s => s

/-- ASCII whitespace, as recognised by Python `str.strip()` on ASCII text. -/
def isSpacePy (c : Char) : Bool :=
  c = ' ' || c = '\t' || c = '\n' || c = '\r' || c = '\x0b' || c = '\x0c'

/-- Python `s.strip()` on a character list: drop ASCII whitespace from both
ends. -/
def pyStripL (l : List Char) : List Char :=
  ((l.dropWhile isSpacePy).reverse.dropWhile isSpacePy).reverse

/-- Python `s.strip()`. -/
def pyStrip (s : String) : String :=
  ⟨pyStripL s.data⟩

/-- Does `l` start with `pat`? -/
def startsWithL : List Char → List Char → Bool
  | [], _ => true
  | _ :: _, [] => false
  | p :: ps, c :: cs => p = c && startsWithL ps cs

/-- `re.sub("\A" + pat, "", s)` for a pattern `pat` with no regex
metacharacters: remove one occurrence of `pat` anchored at the start. -/
def subLeadOnceL (pat : List Char) (l : List Char) : List Char :=
  if startsWithL pat l then l.drop pat.length else l

/-- `re.sub(pat + "\Z", "", s)` for a pattern `pat` with no regex
metacharacters: remove one occurrence of `pat` anchored at the end. -/
def subTrailOnceL (pat : List Char) (l : List Char) : List Char :=
  (subLeadOnceL pat.reverse l.reverse).reverse

/-- Embedding of `SimpleNoteToEnex.cleanup_content` with
`remove_whitespace = True` (the only way it is called): strip whitespace,
then remove one leading and one trailing occurrence of `pattern`. -/
def cleanup_content (json_content : String) (pattern : String) : String :=
  ⟨subTrailOnceL pattern.data (subLeadOnceL pattern.data (pyStripL json_content.data))⟩

/-- Python `s.replace('-','').replace(':','').replace('.','')` on the
timestamp strings in `convert_to_enex`: delete every `-`, `:` and `.`. -/
def convertTimestamp (s : String) : String :=
  ⟨s.data.filter (fun c => !(c = '-' || c = ':' || c = '.'))⟩

/-- Python `s.split(sep, 1)[0]` for non-empty `sep`: the part of `s` before
the first occurrence of `sep` (all of `s` when `sep` does not occur). -/
def beforeFirstL (sep : List Char) : List Char → List Char
  | [] => []
  | c :: cs => if startsWithL sep (c :: cs) then [] else c :: beforeFirstL sep cs

/-- `enex_content.split(self.sn_title_separator, 1)[0]`. -/
def splitTitle (sep s : String) : String :=
  ⟨beforeFirstL sep.data s.data⟩

/-- The tag-element accumulation loop of `convert_to_enex`:
`enex_tags += '<tag>' + tag + '</tag>' + self.line_sep` over
`sn_note['tags']` when the key is present, else `''`. -/
def enexTags (line_sep : String) : Option (List String) → String
  | none => ""
  | some ts => ts.foldl (fun acc tag => acc ++ "<tag>" ++ tag ++ "</tag>" ++ line_sep) ""

/-- The f-string `enex_note` of `convert_to_enex`, with the interpolated
fields as arguments.  The literal text (newlines and indentation included)
mirrors the Python triple-quoted string. -/
def noteBlock (enex_title enex_content enex_created enex_updated enex_author enex_tags : String) : String :=
  "\n<note>\n<title>" ++ enex_title ++ "</title>\n<content>\n    <![CDATA[<?xml version=\"1.0\" encoding=\"UTF-8\" standalone=\"no\"?>\n    <!DOCTYPE en-note SYSTEM \"http://xml.evernote.com/pub/enml2.dtd\">\n    <en-note>\n       " ++ enex_content ++ " \n    </en-note>\n    ]]>\n</content>\n<created>" ++ enex_created ++ "</created>\n<updated>" ++ enex_updated ++ "</updated>\n<note-attributes>\n    <author>" ++ enex_author ++ "</author>\n</note-attributes>\n" ++ enex_tags ++ "\n</note>\n        "

/-- Embedding of `SimpleNoteToEnex.convert_to_enex`.  The three direct dict
accesses `sn_note['creationDate']`, `sn_note['lastModified']` and
`sn_note['content']` raise `KeyError` on an absent key, modelled as `none`. -/
def convert_to_enex (cfg : Config) (sn_note : SNNote) : Option String := do
  let creation ← sn_note.creationDate
  let modified ← sn_note.lastModified
  let rawContent ← sn_note.content
  let enex_created := convertTimestamp creation
  let enex_updated := convertTimestamp modified
  let enex_content := verif_none rawContent
  let enex_content := cleanup_content enex_content cfg.line_sep
  let enex_author := verif_none cfg.author
  let enex_title :=
    if cfg.add_note_title then splitTitle cfg.sn_title_separator enex_content
    else ""
  let enex_tags := enexTags cfg.line_sep sn_note.tags
  some (noteBlock enex_title enex_content enex_created enex_updated enex_author enex_tags ++ cfg.line_sep)

/-- Clause A of `match_note_logical_or`: a tag allow-list is configured, the
record has a `tags` key, and `set(self.tag_filter) & set(sn_note['tags'])`
is non-empty (case-sensitive exact string match). -/
def clauseA (cfg : Config) (sn_note : SNNote) : Bool :=
  cfg.filter_tags &&
    (match sn_note.tags with
     | some ts => ts.any (fun t => cfg.tag_filter.contains t)
     | none => false)

/-- Clause B of `match_note_logical_or`: `match_untagged` is set and the
record has no `tags` key. -/
def clauseB (cfg : Config) (sn_note : SNNote) : Bool :=
  cfg.match_untagged && sn_note.tags.isNone

/-- Clause C of `match_note_logical_or`: `match_tagged` is set and the
record has a `tags` key. -/
def clauseC (cfg : Config) (sn_note : SNNote) : Bool :=
  cfg.match_tagged && sn_note.tags.isSome

/-- Embedding of `SimpleNoteToEnex.match_note_logical_or`: early `True` when
no filter is active; otherwise `convert_this_note` starts `False`, each of
the three `if` statements may set it `True`, and the result is XORed with
`invert_match`. -/
def match_note_logical_or (cfg : Config) (sn_note : SNNote) : Bool :=
  if !(cfg.filter_tags || cfg.match_tagged || cfg.match_untagged) then
    true
  else
    let convert_this_note := false
    let convert_this_note := if clauseA cfg sn_note then true else convert_this_note
    let convert_this_note := if clauseB cfg sn_note then true else convert_this_note
    let convert_this_note := if clauseC cfg sn_note then true else convert_this_note
    convert_this_note != cfg.invert_match

/-- Conversion of a list of records in order, concatenating the blocks; an
exception from `convert_to_enex` propagates. -/
def convertAll (cfg : Config) : List SNNote → Option String
  | [] => some ""
  | n :: rest => do
    let s ← convert_to_enex cfg n
    let t ← convertAll cfg rest
    some (s ++ t)

/-- The record loop of `process_file`: `budget` is
`number_to_be_converted - nconv`, so the loop breaks when it reaches `0`;
a record that fails the filter is skipped without touching the budget. -/
def processNotesGo (cfg : Config) : List SNNote → Nat → Option String
  | [], _ => some ""
  | sn_note :: rest, budget =>
    if budget = 0 then some ""
    else if match_note_logical_or cfg sn_note then do
      let s ← convert_to_enex cfg sn_note
      let t ← processNotesGo cfg rest (budget - 1)
      some (s ++ t)
    else
      processNotesGo cfg rest budget

/-- The `enex_file_header` f-string of `process_file`. -/
def enexFileHeader (export_time : String) : String :=
  "\n<?xml version=\"1.0\" encoding=\"UTF-8\"?>\n<!DOCTYPE en-export SYSTEM \"http://xml.evernote.com/pub/evernote-export3.dtd\">\n<en-export export-date=\"" ++ export_time ++ "\">\n"

/-- The `enex_file_footer` string of `process_file`. -/
def enexFileFooter : String := "</en-export>"

/-- Embedding of `SimpleNoteToEnex.process_file` from the parsed JSON value
onwards (file reading and JSON parsing are outside the model):
`number_to_be_converted = min(self.max_notes, num_active_notes)`, then the
loop, then header, body and footer joined with `line_sep`. -/
def process_file (cfg : Config) (simplenotes : SNCollection) : Option String := do
  let body ← processNotesGo cfg simplenotes.activeNotes
    (min cfg.max_notes simplenotes.activeNotes.length)
  some (enexFileHeader cfg.export_time ++ cfg.line_sep ++ body ++ cfg.line_sep ++ enexFileFooter)

/-- Substring test used to state claims about the produced blocks. -/
def containsSubL (needle : List Char) : List Char → Bool
  | [] => startsWithL needle []
  | c :: cs => startsWithL needle (c :: cs) || containsSubL needle cs

/-- Does `hay` contain `needle` as a contiguous substring? -/
def containsSub (hay needle : String) : Bool :=
  containsSubL needle.data hay.data

/-! Concrete configurations and records used to instantiate the claims. -/

/-- Configuration from the CLI defaults: no author, no title synthesis, no
cap, no tag filter, no match flags, with a fixed export time stamp. -/
def cfgNoFilter : Config :=
  initConfig none false 0 none none false false false "ET"

/-- Default configuration except that `--invert-match` is set. -/
def cfgInvertOnly : Config :=
  initConfig none false 0 none none true false false "ET"

/-- Configuration with `--tag-filter linux,windows` and nothing else. -/
def cfgLinuxWindows : Config :=
  initConfig none false 0 none (some "linux,windows") false false false "ET"

/-- Configuration with `--match-untagged` and nothing else. -/
def cfgUntaggedOnly : Config :=
  initConfig none false 0 none none false false true "ET"

/-- Configuration with `--match-tagged --invert-match` and nothing else. -/
def cfgTaggedInvert : Config :=
  initConfig none false 0 none none true true false "ET"

/-- Configuration with `--number 2` and no filters. -/
def cfgCapTwo : Config :=
  initConfig none false 0 (some 2) none false false false "ET"

/-- The record of the end-to-end example:
`{"content":"Hello","creationDate":"2020-01-01T00:00:00.000Z","lastModified":"2020-01-01T00:00:00.000Z","tags":["x"]}`. -/
def noteC1 : SNNote :=
  { content := some (some "Hello")
    creationDate := some "2020-01-01T00:00:00.000Z"
    lastModified := some "2020-01-01T00:00:00.000Z"
    tags := some ["x"] }

/-- The single block produced for `noteC1` under `cfgNoFilter`. -/
def blockC1 : String := (convert_to_enex cfgNoFilter noteC1).getD ""

/-- A record with tags `["Mac", "linux"]`, from the filter example in the
docstring of `match_note_logical_or`. -/
def noteMacLinux : SNNote :=
  { content := some (some "m")
    creationDate := some "2020-01-01T00:00:00.000Z"
    lastModified := some "2020-01-01T00:00:00.000Z"
    tags := some ["Mac", "linux"] }

/-- A record whose `tags` key is present but holds the empty list. -/
def noteEmptyTags : SNNote :=
  { content := some (some "e")
    creationDate := some "2020-01-01T00:00:00.000Z"
    lastModified := some "2020-01-01T00:00:00.000Z"
    tags := some [] }

/-- A well-formed record whose content is the given string. -/
def sampleNote (s : String) : SNNote :=
  { content := some (some s)
    creationDate := some "2020-01-01T00:00:00.000Z"
    lastModified := some "2020-01-02T00:00:00.000Z"
    tags := some ["x"] }

/-- Five records that all pass the (empty) filter, for the cap example. -/
def notesC3 : List SNNote :=
  [sampleNote "n1", sampleNote "n2", sampleNote "n3", sampleNote "n4", sampleNote "n5"]

/-! Helper lemmas about `dropWhile`, used to analyse `cleanup_content`. -/

/-- `dropWhile` is idempotent. -/
theorem dropWhile_self (p : Char → Bool) : ∀ l : List Char,
    (l.dropWhile p).dropWhile p = l.dropWhile p
  | [] => rfl
  | c :: cs => by
    by_cases h : p c
    · simp only [List.dropWhile_cons, h, if_true]
      exact dropWhile_self p cs
    · simp [List.dropWhile_cons, h]

/-- `dropWhile` never lengthens a list. -/
theorem length_dropWhile_le' (p : Char → Bool) : ∀ l : List Char,
    (l.dropWhile p).length ≤ l.length
  | [] => Nat.le_refl 0
  | c :: cs => by
    by_cases h : p c
    · simp only [List.dropWhile_cons, h, if_true]
      exact Nat.le_trans (length_dropWhile_le' p cs) (Nat.le_succ _)
    · simp [List.dropWhile_cons, h]

/-- If `dropWhile p` fixes a non-empty list, its head fails `p`. -/
theorem head_false_of_dropWhile_fix (p : Char → Bool) (c : Char) (t : List Char)
    (h : List.dropWhile p (c :: t) = c :: t) : p c = false := by
  by_cases hp : p c
  · exfalso
    rw [List.dropWhile_cons, if_pos hp] at h
    have hlen := length_dropWhile_le' p t
    rw [h] at hlen
    simp at hlen
  · simpa using hp

/-- The front-stripped part of `pyStripL` is still stripped: the result of
`pyStripL` is unmoved by a further `dropWhile isSpacePy`. -/
theorem dropWhile_pyStripL (l : List Char) :
    (pyStripL l).dropWhile isSpacePy = pyStripL l := by
  have hAfix : (l.dropWhile isSpacePy).dropWhile isSpacePy = l.dropWhile isSpacePy :=
    dropWhile_self isSpacePy l
  have hdec : l.dropWhile isSpacePy
      = pyStripL l ++ ((l.dropWhile isSpacePy).reverse.takeWhile isSpacePy).reverse := by
    have h1 := congrArg List.reverse
      (List.takeWhile_append_dropWhile isSpacePy (l.dropWhile isSpacePy).reverse)
    rw [List.reverse_append, List.reverse_reverse] at h1
    exact h1.symm
  cases hm : pyStripL l with
  | nil => rfl
  | cons c t =>
    rw [hm] at hdec
    have hc : isSpacePy c = false := by
      apply head_false_of_dropWhile_fix isSpacePy c
        (t ++ ((l.dropWhile isSpacePy).reverse.takeWhile isSpacePy).reverse)
      rw [← List.cons_append, ← hdec]
      exact hAfix
    rw [List.dropWhile_cons, if_neg (by simp [hc])]

/-- The back of the `pyStripL` result is stripped as well. -/
theorem dropWhile_reverse_pyStripL (l : List Char) :
    (pyStripL l).reverse.dropWhile isSpacePy = (pyStripL l).reverse := by
  have h : (pyStripL l).reverse
      = (l.dropWhile isSpacePy).reverse.dropWhile isSpacePy := by
    simp [pyStripL]
  rw [h]
  exact dropWhile_self isSpacePy (l.dropWhile isSpacePy).reverse

/-- `pyStripL` is idempotent. -/
theorem pyStripL_idem (l : List Char) : pyStripL (pyStripL l) = pyStripL l := by
  show (((pyStripL l).dropWhile isSpacePy).reverse.dropWhile isSpacePy).reverse = pyStripL l
  rw [dropWhile_pyStripL]
  rw [dropWhile_reverse_pyStripL]
  exact List.reverse_reverse _

/-- Removing a leading pattern that starts with a whitespace character does
nothing to a front-stripped list. -/
theorem subLeadOnceL_of_stripped (c0 : Char) (pat : List Char)
    (hc0 : isSpacePy c0 = true) (m : List Char)
    (h : m.dropWhile isSpacePy = m) : subLeadOnceL (c0 :: pat) m = m := by
  unfold subLeadOnceL
  cases m with
  | nil => rfl
  | cons c t =>
    have hc : isSpacePy c = false := head_false_of_dropWhile_fix isSpacePy c t h
    have hne : (c0 = c) = False := by
      apply eq_false
      intro hh
      rw [← hh] at hc
      rw [hc0] at hc
      exact Bool.noConfusion hc
    simp [startsWithL, hne]

/-- With the hard-coded line separator `"\r\n"` (whose characters are all
whitespace), `cleanup_content` coincides with Python `str.strip()`: the two
anchored `re.sub` calls find nothing left to remove after the strip. -/
theorem cleanup_content_eq_pyStrip (s : String) :
    cleanup_content s "\r\n" = pyStrip s := by
  have hd : ("\r\n" : String).data = ['\r', '\n'] := rfl
  have hlead : subLeadOnceL ("\r\n" : String).data (pyStripL s.data) = pyStripL s.data := by
    rw [hd]
    exact subLeadOnceL_of_stripped '\r' ['\n'] rfl _ (dropWhile_pyStripL s.data)
  have htrail : subTrailOnceL ("\r\n" : String).data (pyStripL s.data) = pyStripL s.data := by
    unfold subTrailOnceL
    rw [hd]
    have : (['\r', '\n'] : List Char).reverse = '\n' :: ['\r'] := rfl
    rw [this]
    rw [subLeadOnceL_of_stripped '\n' ['\r'] rfl _ (dropWhile_reverse_pyStripL s.data)]
    exact List.reverse_reverse _
  unfold cleanup_content
  rw [hlead, htrail]
  rfl

/-- The record loop of `process_file` converts, in order, exactly the first
`budget` records that pass the filter; skipped records cost no budget. -/
theorem processNotesGo_eq_filter_take (cfg : Config) :
    ∀ (notes : List SNNote) (budget : Nat),
      processNotesGo cfg notes budget
        = convertAll cfg ((notes.filter fun n => match_note_logical_or cfg n).take budget)
  | [], budget => by simp [processNotesGo, convertAll]
  | n :: rest, budget => by
    rcases Nat.eq_zero_or_pos budget with h0 | hpos
    · subst h0
      simp [processNotesGo, convertAll]
    · obtain ⟨b, rfl⟩ : ∃ b, budget = b + 1 := ⟨budget - 1, by omega⟩
      by_cases hm : match_note_logical_or cfg n
      · simp [processNotesGo, hm, List.filter_cons, convertAll,
          processNotesGo_eq_filter_take cfg rest b]
      · simp [processNotesGo, hm, List.filter_cons,
          processNotesGo_eq_filter_take cfg rest (b + 1)]

/-- When at least one filter flag is active, `match_note_logical_or` is the
disjunction of the three clauses XORed with `invert_match`. -/
theorem match_note_eq_clauses (cfg : Config) (sn_note : SNNote)
    (h : (cfg.filter_tags || cfg.match_tagged || cfg.match_untagged) = true) :
    match_note_logical_or cfg sn_note
      = ((clauseA cfg sn_note || clauseB cfg sn_note || clauseC cfg sn_note)
          != cfg.invert_match) := by
  unfold match_note_logical_or
  rw [h]
  cases hA : clauseA cfg sn_note <;> cases hB : clauseB cfg sn_note <;>
    cases hC : clauseC cfg sn_note <;> simp

set_option maxRecDepth 100000 in
/-- C1 (counterexample): for the end-to-end example input, the converted
timestamp is `20200101T000000000Z` — the `T` is not removed — so the string
`20200101000000000Z` claimed by the spec appears nowhere in the output. -/
theorem c1_timestamp_counterexample :
    convertTimestamp "2020-01-01T00:00:00.000Z" = "20200101T000000000Z" ∧
    convertTimestamp "2020-01-01T00:00:00.000Z" ≠ "20200101000000000Z" ∧
    containsSub ((process_file cfgNoFilter ⟨[noteC1]⟩).getD "") "20200101000000000Z" = false := by
  refine ⟨rfl, by decide, by decide⟩

set_option maxRecDepth 100000 in
/-- C1 (amended): the end-to-end example input with no filters produces one
output block between the header and footer; its created and updated elements
hold the converted timestamp `20200101T000000000Z`, it has a tag element for
`x`, and its author and title elements are empty. -/
theorem c1_end_to_end :
    process_file cfgNoFilter ⟨[noteC1]⟩
      = some (enexFileHeader "ET" ++ "\r\n" ++ blockC1 ++ "\r\n" ++ enexFileFooter) ∧
    blockC1
      = noteBlock "" "Hello" "20200101T000000000Z" "20200101T000000000Z" ""
          ("<tag>x</tag>" ++ "\r\n") ++ "\r\n" ∧
    containsSub blockC1 "<created>20200101T000000000Z</created>" = true ∧
    containsSub blockC1 "<updated>20200101T000000000Z</updated>" = true ∧
    containsSub blockC1 "<tag>x</tag>" = true ∧
    containsSub blockC1 "<title></title>" = true ∧
    containsSub blockC1 "<author></author>" = true := by
  refine ⟨by decide, by decide, by decide, by decide, by decide, by decide, by decide⟩

/-- C2 (counterexample): a record without a `content` key makes
`convert_to_enex` raise `KeyError` (modelled as `none`) instead of treating
the field as empty. -/
theorem c2_absent_content_counterexample :
    convert_to_enex cfgNoFilter
      { content := none
        creationDate := some "2020-01-01T00:00:00.000Z"
        lastModified := some "2020-01-01T00:00:00.000Z"
        tags := none } = none := rfl

/-- C2 (amended): a record whose `content` key is present (its value may be
`null` or any string) converts without error; an absent `tags` key yields no
tag elements and an unset author yields an empty author element; but a record
whose `content` key is absent raises `KeyError` and produces no block. -/
theorem c2_optional_fields (cfg : Config) (creation modified : String)
    (c : Option String) (hA : cfg.author = none) :
    convert_to_enex cfg
        { content := some c
          creationDate := some creation
          lastModified := some modified
          tags := none }
      = some (noteBlock
          (if cfg.add_note_title then
            splitTitle cfg.sn_title_separator (cleanup_content (verif_none c) cfg.line_sep)
          else "")
          (cleanup_content (verif_none c) cfg.line_sep)
          (convertTimestamp creation) (convertTimestamp modified) "" "" ++ cfg.line_sep) ∧
    enexTags cfg.line_sep none = "" ∧
    convert_to_enex cfg
        { content := none
          creationDate := some creation
          lastModified := some modified
          tags := none } = none := by
  refine ⟨?_, rfl, rfl⟩
  simp [convert_to_enex, hA, verif_none, enexTags]

/-- C2 (witness): instantiation of `c2_optional_fields` at the default
configuration and a concrete record. -/
theorem c2_optional_fields_witness :
    convert_to_enex cfgNoFilter
        { content := some (some "Hello")
          creationDate := some "2020-01-01T00:00:00.000Z"
          lastModified := some "2020-01-01T00:00:00.000Z"
          tags := none }
      = some (noteBlock
          (if cfgNoFilter.add_note_title then
            splitTitle cfgNoFilter.sn_title_separator
              (cleanup_content (verif_none (some "Hello")) cfgNoFilter.line_sep)
          else "")
          (cleanup_content (verif_none (some "Hello")) cfgNoFilter.line_sep)
          (convertTimestamp "2020-01-01T00:00:00.000Z")
          (convertTimestamp "2020-01-01T00:00:00.000Z") "" "" ++ cfgNoFilter.line_sep) ∧
    enexTags cfgNoFilter.line_sep none = "" ∧
    convert_to_enex cfgNoFilter
        { content := none
          creationDate := some "2020-01-01T00:00:00.000Z"
          lastModified := some "2020-01-01T00:00:00.000Z"
          tags := none } = none :=
  c2_optional_fields cfgNoFilter "2020-01-01T00:00:00.000Z" "2020-01-01T00:00:00.000Z"
    (some "Hello") rfl

set_option maxRecDepth 100000 in
/-- C3: the driver loop converts, in their original order, exactly the first
`budget` filter-passing records, where the driver passes
`budget = min max_notes (length activeNotes)`; records that fail the filter
neither consume budget nor halt the loop.  In particular, with `--number 2`
and five records that all pass, the output holds exactly the blocks of the
first two records, in order. -/
theorem c3_cap_behavior :
    (∀ (cfg : Config) (notes : List SNNote) (budget : Nat),
        processNotesGo cfg notes budget
          = convertAll cfg ((notes.filter fun n => match_note_logical_or cfg n).take budget)) ∧
    (∀ n ∈ notesC3, match_note_logical_or cfgCapTwo n = true) ∧
    min cfgCapTwo.max_notes notesC3.length = 2 ∧
    process_file cfgCapTwo ⟨notesC3⟩
      = (convertAll cfgCapTwo [sampleNote "n1", sampleNote "n2"]).map
          (fun body => enexFileHeader "ET" ++ "\r\n" ++ body ++ "\r\n" ++ enexFileFooter) := by
  refine ⟨processNotesGo_eq_filter_take, by decide, by decide, by decide⟩

/-- C4: with no tag filter and neither match flag set, the Filter Evaluator
returns `true` for every record, and `invert_match` is never consulted. -/
theorem c4_no_filter_true (cfg : Config) (sn_note : SNNote)
    (hf : cfg.filter_tags = false) (hmt : cfg.match_tagged = false)
    (hmu : cfg.match_untagged = false) :
    match_note_logical_or cfg sn_note = true := by
  simp [match_note_logical_or, hf, hmt, hmu]

/-- C4 (witness): `c4_no_filter_true` at a configuration whose only set flag
is `invert_match`, on the example record. -/
theorem c4_no_filter_true_witness :
    cfgInvertOnly.invert_match = true ∧
    match_note_logical_or cfgInvertOnly noteC1 = true :=
  ⟨rfl, c4_no_filter_true cfgInvertOnly noteC1 rfl rfl rfl⟩

/-- C5: with an allow-list configured, clause A holds iff the record has a
`tags` key whose list meets the allow-list under case-sensitive string
equality; with allow-list `["linux", "windows"]` the record tagged
`["Mac", "linux"]` is accepted by the evaluator. -/
theorem c5_allow_list (cfg : Config) (sn_note : SNNote)
    (h : cfg.filter_tags = true) :
    (clauseA cfg sn_note = true ↔
      ∃ ts, sn_note.tags = some ts ∧ ∃ t ∈ ts, t ∈ cfg.tag_filter) ∧
    cfgLinuxWindows.tag_filter = ["linux", "windows"] ∧
    match_note_logical_or cfgLinuxWindows noteMacLinux = true := by
  refine ⟨?_, by decide, by decide⟩
  cases hts : sn_note.tags with
  | none => simp [clauseA, hts]
  | some ts =>
    simp [clauseA, h, hts, List.any_eq_true]

/-- C5 (witness): `c5_allow_list` at the `linux,windows` allow-list
configuration and the `["Mac", "linux"]` record. -/
theorem c5_allow_list_witness :
    (clauseA cfgLinuxWindows noteMacLinux = true ↔
      ∃ ts, noteMacLinux.tags = some ts ∧ ∃ t ∈ ts, t ∈ cfgLinuxWindows.tag_filter) ∧
    cfgLinuxWindows.tag_filter = ["linux", "windows"] ∧
    match_note_logical_or cfgLinuxWindows noteMacLinux = true :=
  c5_allow_list cfgLinuxWindows noteMacLinux rfl

/-- C6: a record whose `tags` key holds the empty list counts as tagged:
clause B does not match it, so `--match-untagged` alone (invert off) rejects
it, while clause C matches it whenever `match_tagged` is set. -/
theorem c6_empty_tag_list (cfg : Config) (sn_note : SNNote)
    (hts : sn_note.tags = some [])
    (hf : cfg.filter_tags = false) (hmt : cfg.match_tagged = false)
    (hmu : cfg.match_untagged = true) (hi : cfg.invert_match = false) :
    clauseB cfg sn_note = false ∧
    match_note_logical_or cfg sn_note = false ∧
    (∀ cfg2 : Config, cfg2.match_tagged = true → clauseC cfg2 sn_note = true) := by
  refine ⟨?_, ?_, ?_⟩
  · simp [clauseB, hts]
  · simp [match_note_logical_or, clauseA, clauseB, clauseC, hts, hf, hmt, hmu, hi]
  · intro cfg2 h2
    simp [clauseC, h2, hts]

/-- C6 (witness): `c6_empty_tag_list` at the `--match-untagged`
configuration and a record with an empty tag list. -/
theorem c6_empty_tag_list_witness :
    clauseB cfgUntaggedOnly noteEmptyTags = false ∧
    match_note_logical_or cfgUntaggedOnly noteEmptyTags = false ∧
    (∀ cfg2 : Config, cfg2.match_tagged = true → clauseC cfg2 noteEmptyTags = true) :=
  c6_empty_tag_list cfgUntaggedOnly noteEmptyTags rfl rfl rfl rfl rfl

/-- C7: whenever at least one of the three filters is active, the evaluator
returns `(A or B or C) XOR invert_match`; consequently flipping
`invert_match` flips the decision on every record. -/
theorem c7_xor_invert (cfg : Config) (sn_note : SNNote)
    (h : (cfg.filter_tags || cfg.match_tagged || cfg.match_untagged) = true) :
    match_note_logical_or cfg sn_note
      = ((clauseA cfg sn_note || clauseB cfg sn_note || clauseC cfg sn_note)
          != cfg.invert_match) ∧
    match_note_logical_or { cfg with invert_match := !cfg.invert_match } sn_note
      = !(match_note_logical_or cfg sn_note) := by
  have h' : (({ cfg with invert_match := !cfg.invert_match } : Config).filter_tags
      || ({ cfg with invert_match := !cfg.invert_match } : Config).match_tagged
      || ({ cfg with invert_match := !cfg.invert_match } : Config).match_untagged) = true := h
  refine ⟨match_note_eq_clauses cfg sn_note h, ?_⟩
  rw [match_note_eq_clauses cfg sn_note h,
    match_note_eq_clauses { cfg with invert_match := !cfg.invert_match } sn_note h']
  have hA : clauseA { cfg with invert_match := !cfg.invert_match } sn_note
      = clauseA cfg sn_note := rfl
  have hB : clauseB { cfg with invert_match := !cfg.invert_match } sn_note
      = clauseB cfg sn_note := rfl
  have hC : clauseC { cfg with invert_match := !cfg.invert_match } sn_note
      = clauseC cfg sn_note := rfl
  rw [hA, hB, hC]
  cases (clauseA cfg sn_note || clauseB cfg sn_note || clauseC cfg sn_note) <;>
    cases hi : cfg.invert_match <;> simp

/-- C7 (witness): `c7_xor_invert` at the `--match-untagged` configuration
and the example record. -/
theorem c7_xor_invert_witness :
    (match_note_logical_or cfgUntaggedOnly noteC1
      = ((clauseA cfgUntaggedOnly noteC1 || clauseB cfgUntaggedOnly noteC1
            || clauseC cfgUntaggedOnly noteC1) != cfgUntaggedOnly.invert_match)) ∧
    match_note_logical_or { cfgUntaggedOnly with invert_match := !cfgUntaggedOnly.invert_match } noteC1
      = !(match_note_logical_or cfgUntaggedOnly noteC1) :=
  c7_xor_invert cfgUntaggedOnly noteC1 rfl

/-- C8: on every record, `--match-tagged --invert-match` decides exactly as
`--match-untagged` does. -/
theorem c8_tagged_invert_eq_untagged (sn_note : SNNote) :
    match_note_logical_or cfgTaggedInvert sn_note
      = match_note_logical_or cfgUntaggedOnly sn_note := by
  cases hts : sn_note.tags <;>
    simp [match_note_logical_or, clauseA, clauseB, clauseC,
      cfgTaggedInvert, cfgUntaggedOnly, initConfig, hts]

/-- C9: content normalization with the configured line separator `"\r\n"`
is idempotent. -/
theorem c9_cleanup_idempotent (s : String) :
    cleanup_content (cleanup_content s "\r\n") "\r\n" = cleanup_content s "\r\n" := by
  rw [cleanup_content_eq_pyStrip s, cleanup_content_eq_pyStrip (pyStrip s)]
  show (⟨pyStripL (pyStripL s.data)⟩ : String) = ⟨pyStripL s.data⟩
  rw [pyStripL_idem]

/-- C10: a record whose `content` key holds JSON `null` converts without
error to exactly the block of the same record with empty-string content. -/
theorem c10_null_content (cfg : Config) (creation modified : String)
    (tags : Option (List String)) :
    convert_to_enex cfg
        { content := some none
          creationDate := some creation
          lastModified := some modified
          tags := tags }
      = convert_to_enex cfg
          { content := some (some "")
            creationDate := some creation
            lastModified := some modified
            tags := tags } ∧
    (convert_to_enex cfg
        { content := some none
          creationDate := some creation
          lastModified := some modified
          tags := tags }).isSome = true :=
  ⟨rfl, rfl⟩

end S2E
